import Mathlib

/-!
# Verification of the deepchat in-process tool-invocation protocol layer

Shallow embedding of the `DirectServer` / `DirectTransport` pair
(src/unnamed/part_006) and of the batch handlers of `ImageServer`
(src/unnamed/part_005), with theorems about the protocol behaviour.

Conventions of the embedding:
* JavaScript objects / JSON payloads are modelled by the inductive `JsonValue`;
  JSON numbers appear in the claims only as integral error codes and integral
  sums, so they are modelled as `Int`.
* A JS `Map` is modelled as an association list in insertion order; `mapSet`
  replaces the value in place when the key exists (a JS `Map.set` keeps the
  original insertion position of an existing key) and appends otherwise.
* A handler `(args) => Promise<unknown>` that may throw is modelled as a total
  function into `Except String JsonValue`; the `.error` message is the thrown
  error's `message` property.
* Absence of a property (`'id' in message` tests) is modelled with `Option`.
-/

/-- JSON-like runtime values (JS numbers restricted to integers: the protocol
claims only involve integral error codes and sums). -/
inductive JsonValue where
  | null
  | bool (b : Bool)
  | num (n : Int)
  | str (s : String)
  | arr (xs : List JsonValue)
  | obj (fields : List (String × JsonValue))

mutual

/-- String interpolation `${v}` of a JS value inside a template literal. -/
def jsTemplate : JsonValue → String
  | .null => "null"
  | .bool true => "true"
  | .bool false => "false"
  | .num n => toString n
  | .str s => s
  | .arr xs => String.intercalate "," (jsTemplateList xs)
  | .obj _ => "[object Object]"

def jsTemplateList : List JsonValue → List String
  | [] => []
  | x :: xs => jsTemplate x :: jsTemplateList xs

end

/-- A small model of `JSON.stringify` (no pretty-printing whitespace; string
escaping limited to quote, backslash and the common control characters — the
claims never inspect the serialized text). -/
def jsonEscape (s : String) : String :=
  s.foldl (fun acc c =>
    acc ++ (if c = '"' then "\\\"" else if c = '\\' then "\\\\"
            else if c = '\n' then "\\n" else if c = '\r' then "\\r"
            else if c = '\t' then "\\t" else String.singleton c)) ""

mutual

def jsonStringify : JsonValue → String
  | .null => "null"
  | .bool true => "true"
  | .bool false => "false"
  | .num n => toString n
  | .str s => "\"" ++ jsonEscape s ++ "\""
  | .arr xs => "[" ++ String.intercalate "," (jsonStringifyList xs) ++ "]"
  | .obj fields => "\x7b" ++ String.intercalate "," (jsonStringifyFields fields) ++ "\x7d"

def jsonStringifyList : List JsonValue → List String
  | [] => []
  | x :: xs => jsonStringify x :: jsonStringifyList xs

def jsonStringifyFields : List (String × JsonValue) → List String
  | [] => []
  | (k, v) :: fs => ("\"" ++ jsonEscape k ++ "\":" ++ jsonStringify v) :: jsonStringifyFields fs

end

/-- JS falsiness of a JSON value (`undefined` is handled by `Option` at the
use sites). -/
def jsFalsy : JsonValue → Bool
  | .null => true
  | .bool false => true
  | .num 0 => true
  | .str "" => true
  | _ => false

/-- `Number(v)` coercion, partial model: numeric strings are parsed with
`String.toInt?` (the empty string coerces to `0`); arrays and objects — whose
JS coercion goes through string conversion — are conservatively mapped to
`none` (= NaN). No claim depends on those exotic cases. -/
def jsNumber? : JsonValue → Option Int
  | .num n => some n
  | .bool b => some (if b then 1 else 0)
  | .null => some 0
  | .str s => if s = "" then some 0 else s.toInt?
  | _ => none

/-- Property access `o[k]` on an argument object. -/
def lookupField (fields : List (String × JsonValue)) (k : String) : Option JsonValue :=
  (fields.find? (fun p => p.1 = k)).map Prod.snd

/-- Argument object handed to a tool handler (`Record<string, unknown>`). -/
def Args : Type := List (String × JsonValue)

/-- A tool handler: `(args: Record<string, unknown>) => Promise<unknown>`;
a rejected promise / thrown `Error` is the `.error` case carrying the message. -/
def Handler : Type := Args → Except String JsonValue

/-- `call_tool` parameters `{ name, arguments }`; `Option` models the fields
being possibly `undefined`. -/
structure CallParams where
  name : Option String
  arguments : Option Args

/-- An incoming `JSONRPCMessage`; `Option` fields model `'method' in message`
/ `'params' in message` / `'id' in message` property-presence tests. -/
structure JMessage where
  id : Option JsonValue
  method : Option String
  params : Option CallParams

/-- An outgoing `JSONRPCMessage`: either a result message or an error message
(`{ jsonrpc, id, result }` / `{ jsonrpc, id, error: { code, message } }`). -/
inductive JResponse where
  | success (id : JsonValue) (result : JsonValue)
  | error (id : JsonValue) (code : Int) (message : String)

/-- Correlation id of a response. -/
def JResponse.rid : JResponse → JsonValue
  | .success i _ => i
  | .error i _ _ => i

/-- The ubiquitous `'id' in message ? message.id : <fallback>` pattern. -/
def idOr (msg : JMessage) (fallback : String) : JsonValue :=
  match msg.id with
  | some i => i
  | none => .str fallback

/-- `Map.set` on an insertion-ordered association list: replaces in place when
the key is present (JS `Map` keeps the original position), appends otherwise. -/
def mapSet (m : List (String × α)) (k : String) (v : α) : List (String × α) :=
  match m with
  | [] => [(k, v)]
  | (k', v') :: rest => if k' = k then (k, v) :: rest else (k', v') :: mapSet rest k v

/-- Entry of the `_tools` array (`{ name, description, inputSchema }`). -/
structure ToolInfo where
  name : String
  description : String
  inputSchema : JsonValue

/-- The mutable state of a `DirectServer`: the `_toolHandlers` map and the
`_tools` array. (The `_messageHandlers` map always holds exactly the
`call_tool` and `list_tools` handlers installed by the constructor; it is
embedded as the fixed dispatch in `handleRequestStep`.) -/
structure ServerState where
  toolHandlers : List (String × Handler)
  tools : List ToolInfo

def emptyServerState : ServerState := ⟨[], []⟩

/-- `DirectServer.registerTool`: sets the handler in the map and *pushes* the
descriptor onto the `_tools` array (note: push, not replace). -/
def registerTool (name description : String) (handler : Handler)
    (inputSchema : JsonValue) (st : ServerState) : ServerState :=
  { toolHandlers := mapSet st.toolHandlers name handler
    tools := st.tools ++ [⟨name, description, inputSchema⟩] }

/-- Result-content wrapping in the `call_tool` handler:
`Array.isArray(result) ? result : [{ type: 'text', text: JSON.stringify(result) }]`. -/
def toContent (v : JsonValue) : List JsonValue :=
  match v with
  | .arr xs => xs
  | v => [.obj [("type", .str "text"), ("text", .str (jsonStringify v))]]

/-- The `call_tool` message handler installed by `_registerCallToolHandler`.
State is threaded explicitly; every branch returns the state unchanged because
the source handler only reads `this._toolHandlers`. -/
def callToolStep (st : ServerState) (msg : JMessage) : JResponse × ServerState :=
  if msg.method.isNone ∨ msg.params.isNone then
    (.error (idOr msg "null") (-32600) "无效的请求", st)
  else
    let params := msg.params.getD ⟨none, none⟩
    let name := params.name
    let args := params.arguments.getD []
    match name.bind (fun n => List.lookup n st.toolHandlers) with
    | none =>
        -- `throw new Error('工具不存在: ' + name)`, caught by the handler's
        -- own try/catch and turned into a -32000 error response.
        (.error (idOr msg "error") (-32000)
          ("工具不存在: " ++ (match name with | some n => n | none => "undefined")), st)
    | some handler =>
        match handler args with
        | .ok result =>
            (.success (idOr msg "call_tool")
              (.obj [("content", .arr (toContent result))]), st)
        | .error e =>
            (.error (idOr msg "error") (-32000) e, st)

/-- Rendering of one descriptor in the `list_tools` result: looks the name up
in the `_tools` array (first match wins) and falls back to defaults through JS
truthiness (`tool?.description || ...`, `tool?.inputSchema || ...`). -/
def defaultSchema : JsonValue :=
  .obj [("type", .str "object"), ("properties", .obj []), ("required", .arr [])]

def renderDescriptor (name : String) (tool : Option ToolInfo) : JsonValue :=
  .obj [("name", .str name),
        ("description", .str (match tool with
          | some t => if t.description = "" then "工具 " ++ name else t.description
          | none => "工具 " ++ name)),
        ("inputSchema", match tool with
          | some t => if jsFalsy t.inputSchema then defaultSchema else t.inputSchema
          | none => defaultSchema)]

/-- The array built by the `list_tools` handler:
`Array.from(this._toolHandlers.keys()).map(name => ...)`. -/
def listToolsArray (st : ServerState) : List JsonValue :=
  (st.toolHandlers.map Prod.fst).map
    (fun name => renderDescriptor name (st.tools.find? (fun t => t.name == name)))

/-- The `list_tools` message handler installed by `_registerListToolsHandler`
(its try block cannot throw, so the catch branch is unreachable and omitted). -/
def listToolsStep (st : ServerState) (msg : JMessage) : JResponse × ServerState :=
  if msg.method.isNone then
    (.error (idOr msg "null") (-32600) "无效的请求", st)
  else
    (.success (idOr msg "list_tools") (.obj [("tools", .arr (listToolsArray st))]), st)

/-- `DirectServer.handleRequest`: dispatches on `message.method` through the
`_messageHandlers` map, which holds exactly the `call_tool` and `list_tools`
handlers; an unknown method yields the -32601 error. -/
def handleRequestStep (st : ServerState) (msg : JMessage) : JResponse × ServerState :=
  match msg.method with
  | none => (.error (idOr msg "error") (-32600) "无效的请求：缺少method", st)
  | some m =>
      if m = "call_tool" then callToolStep st msg
      else if m = "list_tools" then listToolsStep st msg
      else (.error (idOr msg "error") (-32601) ("方法不存在: " ++ m), st)

/-- The response produced by `handleRequest` (by construction exactly one
terminal response is returned per request). -/
def handleRequest (st : ServerState) (msg : JMessage) : JResponse :=
  (handleRequestStep st msg).1

/-! ## Built-in tools and the `DirectServer` constructor -/

/-- The `sum` reduction: `numbers.reduce(...)`, throwing on the first
non-numeric element, mirroring the source's NaN check. -/
def sumFold : List JsonValue → Int → Except String Int
  | [], acc => .ok acc
  | x :: rest, acc =>
      match jsNumber? x with
      | some n => sumFold rest (acc + n)
      | none => .error ("数组中包含非数字值: " ++ jsTemplate x)

/-- Handler of the built-in `sum` tool. A missing or non-array `numbers`
property fails the `Array.isArray` check and throws. -/
def sumHandler : Handler := fun args =>
  match lookupField args "numbers" with
  | some (.arr xs) =>
      (sumFold xs 0).map (fun s => .obj [("sum", .num s)])
  | _ => .error "参数必须是一个数字数组"

/-- Declared input schema of the built-in `sum` tool. -/
def sumInputSchema : JsonValue :=
  .obj [("type", .str "object"),
        ("properties", .obj [("numbers", .obj
          [("type", .str "array"),
           ("items", .obj [("type", .str "number")]),
           ("description", .str "要计算总和的数字数组")])]),
        ("required", .arr [.str "numbers"])]

/-- Handler of the built-in `listPresenters` tool. The source enumerates the
properties of the runtime-global `presenter` object; that reflection data is
runtime input, so the embedding takes the resulting presenter list as a
parameter. -/
def listPresentersHandler (presenters : List JsonValue) : Handler := fun _ =>
  .ok (.obj [("presenters", .arr presenters)])

/-- Declared input schema of the built-in `listPresenters` tool. -/
def listPresentersInputSchema : JsonValue :=
  .obj [("type", .str "object"), ("properties", .obj []), ("required", .arr [])]

/-- `DirectServer.registerBuiltinTools`: registers `sum` then `listPresenters`. -/
def registerBuiltinTools (presenters : List JsonValue) (st : ServerState) : ServerState :=
  registerTool "listPresenters" "获取当前项目中所有可用的Presenter"
    (listPresentersHandler presenters) listPresentersInputSchema
    (registerTool "sum" "计算一组数字的总和" sumHandler sumInputSchema st)

/-- A caller-supplied tool in `DirectServerOptions.tools`. -/
structure RegSpec where
  name : String
  description : String
  handler : Handler
  inputSchema : JsonValue

def RegSpec.toInfo (r : RegSpec) : ToolInfo := ⟨r.name, r.description, r.inputSchema⟩

/-- Sequential registration of caller-supplied tools (`options.tools.forEach`). -/
def applyRegs (regs : List RegSpec) (st : ServerState) : ServerState :=
  regs.foldl (fun st r => registerTool r.name r.description r.handler r.inputSchema st) st

/-- The `DirectServer` constructor: registers the caller-supplied tools first,
then the built-in tools, starting from the empty registry. -/
def newDirectServer (tools : List RegSpec) (presenters : List JsonValue) : ServerState :=
  registerBuiltinTools presenters (applyRegs tools emptyServerState)

/-! ## `DirectTransport` (src/unnamed/part_006, second file) -/

/-- Observable state of a `DirectTransport`: the `_isConnected` flag and the
number of listeners registered on the internal `EventEmitter`. -/
structure TransportState where
  isConnected : Bool
  listeners : Nat
  deriving DecidableEq

/-- Transport construction options, reduced to what the protocol claims
observe: whether an `onClose` cleanup callback was registered. (The cleanup
callback actually registered by `DirectServer.createDirectTransport` only
removes event listeners and cannot throw.) -/
structure TransportOpts where
  hasOnClose : Bool

/-- Effects of one `close()` call: how many times the registered `onClose`
cleanup callback ran and how many times the `onclose` notification fired. -/
structure CloseEffects where
  onCloseCalls : Nat
  oncloseCalls : Nat
  deriving DecidableEq

/-- Effects of one `send()` call: responses republished through the internal
`response` event (delivered to `onmessage`), and errors delivered to the
`onerror` callback. -/
structure SendEffects where
  emitted : List JResponse
  onerrorCalls : List String

/-- `DirectTransport.start`: throws when already connected, otherwise sets the
flag and registers the single internal `response` listener. -/
def transportStart (s : TransportState) : Except String (TransportState × Unit) :=
  if s.isConnected then .error "DirectTransport已经启动！"
  else .ok ({ isConnected := true, listeners := s.listeners + 1 }, ())

/-- `DirectTransport.close`: early-returns when not connected; otherwise
clears the flag, removes all internal listeners, awaits the optional `onClose`
cleanup callback and fires `onclose`. No code path throws, hence the result is
always `.ok` in the `Except` signature shared by the transport operations. -/
def transportClose (opts : TransportOpts) (s : TransportState) :
    Except String (TransportState × CloseEffects) :=
  if !s.isConnected then .ok (s, ⟨0, 0⟩)
  else .ok ({ isConnected := false, listeners := 0 },
            ⟨if opts.hasOnClose then 1 else 0, 1⟩)

/-- `DirectTransport.send`: throws when not connected; otherwise dispatches
the message through the bound `handleMessage` callback inside a try/catch —
a successful result is re-emitted as a `response` event, a failure is routed
to `onerror` and `send` itself resolves normally. -/
def transportSend (handleMessage : JMessage → Except String JResponse)
    (s : TransportState) (msg : JMessage) : Except String SendEffects :=
  if !s.isConnected then .error "未连接"
  else
    match handleMessage msg with
    | .ok r => .ok ⟨[r], []⟩
    | .error e => .ok ⟨[], [e]⟩

/-! ## `ImageServer` batch tools (src/unnamed/part_005) -/

/-- One entry of the aggregated batch result: `{path, base64}` / `{path, url}`
on success (the payload field), `{path, error}` on failure. -/
inductive BatchEntry where
  | ok (path : String) (payload : String)
  | err (path : String) (msg : String)
  deriving DecidableEq

def BatchEntry.path : BatchEntry → String
  | .ok p _ => p
  | .err p _ => p

def BatchEntry.isErr : BatchEntry → Bool
  | .ok _ _ => false
  | .err _ _ => true

/-- JSON shape of one formatted batch entry (`payloadKey` is `"base64"` for
`read_multiple_images_base64` and `"url"` for `upload_multiple_images`). -/
def BatchEntry.toJson (payloadKey : String) : BatchEntry → JsonValue
  | .ok p b => .obj [("path", .str p), (payloadKey, .str b)]
  | .err p e => .obj [("path", .str p), ("error", .str e)]

/-- The `Promise.allSettled` fan-out shared by both batch handlers: each path
is processed independently through `op` (the per-item operation, e.g.
`fs.readFile` + base64 conversion, or read + upload); a rejection carries that
item's error message. `allSettled` preserves input order, so the aggregated
list is the in-order map. -/
def batchResults (op : String → Except String String) (paths : List String) :
    List BatchEntry :=
  paths.map (fun p =>
    match op p with
    | .ok payload => .ok p payload
    | .error e => .err p e)

/-- The `call_tool` result shape of `ImageServer`
(`{ content, isError? }`; a success response omits `isError`, modelled as
`false`). -/
structure CallToolResult where
  content : List JsonValue
  isError : Bool

/-- zod validation of `{ paths: z.array(z.string()) }`. -/
def parseStringList : List JsonValue → Option (List String)
  | [] => some []
  | .str s :: rest => (parseStringList rest).map (fun l => s :: l)
  | _ => none

/-- Batch tool handler body shared by `read_multiple_images_base64` and
`upload_multiple_images`: validate `{paths}`, fan out over the paths, wrap the
formatted per-item results as one JSON text block in a success response. A
zod failure throws and is caught by the surrounding try/catch, which yields an
`isError` response (the textual rendering of the `ZodError` is runtime data
and is not modelled further). -/
def batchToolCall (toolName : String) (payloadKey : String)
    (op : String → Except String String) (args : Option JsonValue) : CallToolResult :=
  match args with
  | some (.obj fields) =>
      match lookupField fields "paths" with
      | some (.arr xs) =>
          match parseStringList xs with
          | some paths =>
              { content := [.obj [("type", .str "text"),
                  ("text", .str (jsonStringify
                    (.arr ((batchResults op paths).map (BatchEntry.toJson payloadKey)))))]]
                isError := false }
          | none =>
              { content := [.obj [("type", .str "text"),
                  ("text", .str ("Error: Invalid arguments for " ++ toolName ++ ": ZodError"))]]
                isError := true }
      | _ =>
          { content := [.obj [("type", .str "text"),
              ("text", .str ("Error: Invalid arguments for " ++ toolName ++ ": ZodError"))]]
            isError := true }
  | _ =>
      { content := [.obj [("type", .str "text"),
          ("text", .str ("Error: Invalid arguments for " ++ toolName ++ ": ZodError"))]]
        isError := true }

/-- The `read_multiple_images_base64` handler, parametrized by the composite
per-item operation `readFileBase64` (read the file and base64-encode it; its
`.error` is the `fs.readFile` rejection message). -/
def readMultipleImagesCall (readFileBase64 : String → Except String String)
    (args : Option JsonValue) : CallToolResult :=
  batchToolCall "read_multiple_images_base64" "base64" readFileBase64 args

/-- The `upload_multiple_images` handler, parametrized by the composite
per-item operation `readAndUpload` (read the file and upload it, returning the
public URL; its `.error` is the read or upload failure message). -/
def uploadMultipleImagesCall (readAndUpload : String → Except String String)
    (args : Option JsonValue) : CallToolResult :=
  batchToolCall "upload_multiple_images" "url" readAndUpload args

/-! ## Helper lemmas -/

lemma lookup_mapSet_self (m : List (String × α)) (k : String) (v : α) :
    List.lookup k (mapSet m k v) = some v := by
  induction m with
  | nil => simp [mapSet, List.lookup]
  | cons p rest ih =>
      obtain ⟨k', v'⟩ := p
      by_cases h : k' = k
      · simp [mapSet, h, List.lookup]
      · simp [mapSet, h, List.lookup, ih, beq_false_of_ne (Ne.symm h)]

lemma lookup_mapSet_ne (m : List (String × α)) {k k' : String} (v : α)
    (h : k' ≠ k) : List.lookup k' (mapSet m k v) = List.lookup k' m := by
  induction m with
  | nil => simp [mapSet, List.lookup, beq_false_of_ne h]
  | cons p rest ih =>
      obtain ⟨k₀, v₀⟩ := p
      by_cases h₀ : k₀ = k
      · subst h₀
        simp [mapSet, List.lookup, beq_false_of_ne h]
      · simp [mapSet, h₀, List.lookup, ih]

lemma mapSet_of_not_mem {m : List (String × α)} {k : String}
    (h : k ∉ m.map Prod.fst) (v : α) : mapSet m k v = m ++ [(k, v)] := by
  induction m with
  | nil => simp [mapSet]
  | cons p rest ih =>
      obtain ⟨k₀, v₀⟩ := p
      simp only [List.map_cons, List.mem_cons, not_or] at h
      simp [mapSet, Ne.symm h.1, ih h.2]

lemma mem_keys_mapSet_self (m : List (String × α)) (k : String) (v : α) :
    k ∈ (mapSet m k v).map Prod.fst := by
  induction m with
  | nil => simp [mapSet]
  | cons p rest ih =>
      obtain ⟨k₀, v₀⟩ := p
      by_cases h : k₀ = k
      · simp [mapSet, h]
      · simp [mapSet, h, ih]

lemma mem_keys_mapSet_of_mem (m : List (String × α)) {k' : String} (k : String) (v : α)
    (h : k' ∈ m.map Prod.fst) : k' ∈ (mapSet m k v).map Prod.fst := by
  induction m with
  | nil => simp at h
  | cons p rest ih =>
      obtain ⟨k₀, v₀⟩ := p
      simp only [List.map_cons, List.mem_cons] at h
      by_cases h₀ : k₀ = k
      · rcases h with h | h
        · simp [mapSet, h₀, h₀ ▸ h]
        · simp [mapSet, h₀, h]
      · rcases h with h | h
        · simp [mapSet, h₀, h]
        · simp [mapSet, h₀, ih h]

lemma callToolStep_state (st : ServerState) (msg : JMessage) :
    (callToolStep st msg).2 = st := by
  unfold callToolStep
  split
  · rfl
  · dsimp only
    split
    · rfl
    · split <;> rfl

lemma listToolsStep_state (st : ServerState) (msg : JMessage) :
    (listToolsStep st msg).2 = st := by
  unfold listToolsStep
  split <;> rfl

/-- `handleRequest` never mutates the registry: every branch of every message
handler returns the state it was given. -/
lemma step_state_eq (st : ServerState) (msg : JMessage) :
    (handleRequestStep st msg).2 = st := by
  unfold handleRequestStep
  split
  · rfl
  · split
    · exact callToolStep_state st msg
    · split
      · exact listToolsStep_state st msg
      · rfl

/-! ## Substring test (used to state that an error message does not name a
field; `String.splitOn`-style library functions do not reduce in the kernel). -/

def charsHaveSub (sub : List Char) : List Char → Bool
  | [] => sub.isEmpty
  | c :: rest => List.isPrefixOf sub (c :: rest) || charsHaveSub sub rest

def strHasSub (s sub : String) : Bool := charsHaveSub sub.data s.data

/-- The `required` property of a declared input schema. -/
def schemaRequired : JsonValue → Option JsonValue
  | .obj fs => lookupField fs "required"
  | _ => none

/-! ## Concrete fixtures used by counterexamples and witnesses -/

/-- A freshly constructed `DirectServer` with no caller-supplied tools (the
presenter list is runtime data; the empty list is used for evaluation). -/
def freshServer : ServerState := newDirectServer [] []

def msgUnknownTool : JMessage :=
  ⟨some (.num 1), some "call_tool", some ⟨some "nosuch", some [("x", .num 42)]⟩⟩

def msgUnknownMethod : JMessage := ⟨some (.num 2), some "frobnicate", none⟩

def msgSumNoNumbers : JMessage :=
  ⟨some (.num 7), some "call_tool", some ⟨some "sum", some [("other", .num 1)]⟩⟩

/-! ## Claims -/

/-- C1, counterexample. The claim says a `call_tool` request naming an
unregistered tool yields the protocol's MethodNotFound code — the same code
as an unknown method. On the code, the unknown-tool path throws inside the
`call_tool` handler and is caught into the generic `-32000` error, while an
unknown method yields `-32601`: the two codes differ. -/
theorem unregisteredTool_code_counterexample :
    handleRequest freshServer msgUnknownTool
      = .error (.num 1) (-32000) "工具不存在: nosuch"
    ∧ handleRequest freshServer msgUnknownMethod
      = .error (.num 2) (-32601) "方法不存在: frobnicate"
    ∧ ((-32000 : Int) ≠ -32601) :=
  ⟨rfl, rfl, by decide⟩

/-- C1, amended: for every `call_tool` request naming an unregistered tool,
regardless of the arguments supplied, the response is an ErrorResponse with
the generic tool-failure code `-32000` (not the `-32601` MethodNotFound code
used for an unknown method), whose message names the missing tool. -/
theorem unregisteredTool_generic_error (st : ServerState) (msg : JMessage)
    (p : CallParams) (n : String)
    (hm : msg.method = some "call_tool") (hp : msg.params = some p)
    (hn : p.name = some n) (hl : List.lookup n st.toolHandlers = none) :
    handleRequest st msg = .error (idOr msg "error") (-32000) ("工具不存在: " ++ n) := by
  simp [handleRequest, handleRequestStep, callToolStep, hm, hp, hn, hl]

theorem unregisteredTool_generic_error_witness :
    (msgUnknownTool.method = some "call_tool"
      ∧ msgUnknownTool.params = some ⟨some "nosuch", some [("x", .num 42)]⟩
      ∧ (⟨some "nosuch", some [("x", .num 42)]⟩ : CallParams).name = some "nosuch"
      ∧ List.lookup "nosuch" freshServer.toolHandlers = none)
    ∧ handleRequest freshServer msgUnknownTool
        = .error (idOr msgUnknownTool "error") (-32000) ("工具不存在: " ++ "nosuch") :=
  ⟨⟨rfl, rfl, rfl, rfl⟩,
    unregisteredTool_generic_error freshServer msgUnknownTool
      ⟨some "nosuch", some [("x", .num 42)]⟩ "nosuch" rfl rfl rfl rfl⟩

/-- C2, counterexample. The claim says a `call_tool` request for a registered
tool whose schema lists a required field, with that field omitted, yields an
InvalidParams ErrorResponse naming the field, without invoking the handler.
On the code there is no schema validation at all: the built-in `sum` tool
declares `required: ["numbers"]`, yet calling it without `numbers` invokes the
handler (the response carries the handler's own thrown message), the code is
the generic `-32000`, and the message does not name the field. -/
theorem missingRequiredField_counterexample :
    schemaRequired sumInputSchema = some (.arr [.str "numbers"])
    ∧ handleRequest freshServer msgSumNoNumbers
        = .error (.num 7) (-32000) "参数必须是一个数字数组"
    ∧ sumHandler [("other", .num 1)] = .error "参数必须是一个数字数组"
    ∧ strHasSub "参数必须是一个数字数组" "numbers" = false :=
  ⟨rfl, rfl, rfl, by decide⟩

/-- C2, amended: the server performs no schema validation before dispatch —
the arguments are passed to the registered handler as-is. For the built-in
`sum` tool (whose schema requires `numbers`), omitting `numbers` invokes the
handler, which throws, producing an ErrorResponse with the generic `-32000`
code and the handler's own message `参数必须是一个数字数组` — a message that
does not name the offending field. -/
theorem missingRequiredField_handler_error (st : ServerState) (msg : JMessage)
    (p : CallParams)
    (hm : msg.method = some "call_tool") (hp : msg.params = some p)
    (hn : p.name = some "sum")
    (hl : List.lookup "sum" st.toolHandlers = some sumHandler)
    (ha : lookupField (p.arguments.getD []) "numbers" = none) :
    handleRequest st msg
      = .error (idOr msg "error") (-32000) "参数必须是一个数字数组"
    ∧ strHasSub "参数必须是一个数字数组" "numbers" = false := by
  refine ⟨?_, by decide⟩
  simp [handleRequest, handleRequestStep, callToolStep, hm, hp, hn, hl, sumHandler, ha]

theorem missingRequiredField_handler_error_witness :
    (msgSumNoNumbers.method = some "call_tool"
      ∧ msgSumNoNumbers.params = some ⟨some "sum", some [("other", .num 1)]⟩
      ∧ (⟨some "sum", some [("other", .num 1)]⟩ : CallParams).name = some "sum"
      ∧ List.lookup "sum" freshServer.toolHandlers = some sumHandler
      ∧ lookupField (((⟨some "sum", some [("other", .num 1)]⟩ : CallParams)).arguments.getD [])
          "numbers" = none)
    ∧ (handleRequest freshServer msgSumNoNumbers
        = .error (idOr msgSumNoNumbers "error") (-32000) "参数必须是一个数字数组"
      ∧ strHasSub "参数必须是一个数字数组" "numbers" = false) :=
  ⟨⟨rfl, rfl, rfl, rfl, rfl⟩,
    missingRequiredField_handler_error freshServer msgSumNoNumbers
      ⟨some "sum", some [("other", .num 1)]⟩ rfl rfl rfl rfl rfl⟩

lemma idOr_of_some {msg : JMessage} {i : JsonValue} (h : msg.id = some i)
    (fallback : String) : idOr msg fallback = i := by
  simp [idOr, h]

lemma callToolStep_rid {st : ServerState} {msg : JMessage} {i : JsonValue}
    (h : msg.id = some i) : (callToolStep st msg).1.rid = i := by
  unfold callToolStep
  split
  · simp [JResponse.rid, idOr_of_some h]
  · dsimp only
    split
    · simp [JResponse.rid, idOr_of_some h]
    · split <;> simp [JResponse.rid, idOr_of_some h]

lemma listToolsStep_rid {st : ServerState} {msg : JMessage} {i : JsonValue}
    (h : msg.id = some i) : (listToolsStep st msg).1.rid = i := by
  unfold listToolsStep
  split <;> simp [JResponse.rid, idOr_of_some h]

/-- C3: every request that carries an id gets back a response carrying exactly
that id, whether it is routed to the `list_tools` handler, to the `call_tool`
handler (succeeding or failing in any of its branches), or rejected as an
invalid request / unknown method. `handleRequest` returns exactly one terminal
response per request by construction (its result type is a single message). -/
theorem response_id_matches_request (st : ServerState) (msg : JMessage)
    (i : JsonValue) (h : msg.id = some i) :
    (handleRequest st msg).rid = i := by
  unfold handleRequest handleRequestStep
  split
  · simp [JResponse.rid, idOr_of_some h]
  · split
    · exact callToolStep_rid h
    · split
      · exact listToolsStep_rid h
      · simp [JResponse.rid, idOr_of_some h]

theorem response_id_matches_request_witness :
    (msgSumNoNumbers.id = some (.num 7))
    ∧ (handleRequest freshServer msgSumNoNumbers).rid = .num 7 :=
  ⟨rfl, response_id_matches_request freshServer msgSumNoNumbers (.num 7) rfl⟩

lemma find?_append_left_none {α : Type} {l l' : List α} {p : α → Bool}
    (h : l.find? p = none) : (l ++ l').find? p = l'.find? p := by
  simp [List.find?_append, h]

/-! ### C4 fixtures: register twice under the same name -/

def handlerOne : Handler := fun _ => .ok (.arr [.str "one"])

def handlerTwo : Handler := fun _ => .ok (.arr [.str "two"])

def schemaOne : JsonValue := .obj [("type", .str "object"), ("v", .num 1)]

def schemaTwo : JsonValue := .obj [("type", .str "object"), ("v", .num 2)]

/-- Server state after registering tool `t` twice: first with description
"first" / `schemaOne`, then with description "second" / `schemaTwo`. -/
def doubleRegServer : ServerState :=
  registerTool "t" "second" handlerTwo schemaTwo
    (registerTool "t" "first" handlerOne schemaOne emptyServerState)

def msgCallT : JMessage := ⟨some (.num 3), some "call_tool", some ⟨some "t", some []⟩⟩

def msgListTools : JMessage := ⟨some (.num 4), some "list_tools", none⟩

/-- C4, counterexample. The claim says that after a second registration under
the same name, `list_tools` reports the newly registered description and input
schema. On the code, `registerTool` *pushes* a second descriptor onto the
`_tools` array while `Map.set` replaces the handler, and the `list_tools`
handler uses `Array.find`, which returns the *first* matching descriptor: after
registering `t` as "first"/`schemaOne` and then "second"/`schemaTwo`, dispatch
does use the new handler, but `list_tools` still reports "first"/`schemaOne`. -/
theorem reregistration_descriptor_counterexample :
    handleRequest doubleRegServer msgCallT
      = .success (.num 3) (.obj [("content", .arr [.str "two"])])
    ∧ handleRequest doubleRegServer msgListTools
      = .success (.num 4) (.obj [("tools", .arr
          [.obj [("name", .str "t"), ("description", .str "first"),
                 ("inputSchema", schemaOne)]])])
    ∧ ("first" ≠ "second") :=
  ⟨rfl, rfl, by decide⟩

/-- C4, amended: registering a second tool under an already-registered name
raises no error (`registerTool` is total) and replaces the handler in the
dispatch map — `call_tool` uses the newly registered handler. But the
descriptor reported by `list_tools` for that name is the one of the *first*
registration: descriptors are appended to the `_tools` array and `Array.find`
returns the first match, so the stale description and input schema are
reported. -/
theorem reregistration_last_handler_first_descriptor (st : ServerState)
    (n d₁ d₂ : String) (h₁ h₂ : Handler) (s₁ s₂ : JsonValue)
    (hfresh : st.tools.find? (fun t => t.name == n) = none) :
    List.lookup n
        (registerTool n d₂ h₂ s₂ (registerTool n d₁ h₁ s₁ st)).toolHandlers = some h₂
    ∧ (registerTool n d₂ h₂ s₂ (registerTool n d₁ h₁ s₁ st)).tools.find?
        (fun t => t.name == n) = some ⟨n, d₁, s₁⟩ := by
  constructor
  · have : (registerTool n d₂ h₂ s₂ (registerTool n d₁ h₁ s₁ st)).toolHandlers
        = mapSet (mapSet st.toolHandlers n h₁) n h₂ := rfl
    rw [this, lookup_mapSet_self]
  · have : (registerTool n d₂ h₂ s₂ (registerTool n d₁ h₁ s₁ st)).tools
        = st.tools ++ ([⟨n, d₁, s₁⟩] ++ [⟨n, d₂, s₂⟩]) := by
      simp [registerTool]
    rw [this, find?_append_left_none hfresh]
    simp [List.find?]

theorem reregistration_last_handler_first_descriptor_witness :
    (emptyServerState.tools.find? (fun t => t.name == "t") = none)
    ∧ (List.lookup "t"
        (registerTool "t" "second" handlerTwo schemaTwo
          (registerTool "t" "first" handlerOne schemaOne emptyServerState)).toolHandlers
        = some handlerTwo
      ∧ (registerTool "t" "second" handlerTwo schemaTwo
          (registerTool "t" "first" handlerOne schemaOne emptyServerState)).tools.find?
          (fun t => t.name == "t") = some ⟨"t", "first", schemaOne⟩) :=
  ⟨rfl, reregistration_last_handler_first_descriptor emptyServerState
    "t" "first" "second" handlerOne handlerTwo schemaOne schemaTwo rfl⟩

lemma applyRegs_nil (st : ServerState) : applyRegs [] st = st := rfl

lemma applyRegs_cons (r : RegSpec) (rs : List RegSpec) (st : ServerState) :
    applyRegs (r :: rs) st
      = applyRegs rs (registerTool r.name r.description r.handler r.inputSchema st) := rfl

/-- Registering a list of distinctly-named tools, none of which collides with
the existing registry, appends their names to the key order and their
descriptors to the `_tools` array. -/
lemma applyRegs_keys_tools (regs : List RegSpec) :
    ∀ st : ServerState, (regs.map RegSpec.name).Nodup →
    (∀ r ∈ regs, r.name ∉ st.toolHandlers.map Prod.fst) →
    (applyRegs regs st).toolHandlers.map Prod.fst
        = st.toolHandlers.map Prod.fst ++ regs.map RegSpec.name
    ∧ (applyRegs regs st).tools = st.tools ++ regs.map RegSpec.toInfo := by
  induction regs with
  | nil => intro st _ _; simp [applyRegs_nil]
  | cons r rs ih =>
      intro st hnd hdisj
      have hfresh : r.name ∉ st.toolHandlers.map Prod.fst :=
        hdisj r (List.mem_cons_self r rs)
      have hset : (registerTool r.name r.description r.handler r.inputSchema st).toolHandlers
          = st.toolHandlers ++ [(r.name, r.handler)] := mapSet_of_not_mem hfresh _
      have hkeys1 : (registerTool r.name r.description r.handler r.inputSchema st).toolHandlers.map
          Prod.fst = st.toolHandlers.map Prod.fst ++ [r.name] := by
        rw [hset]; simp
      rw [List.map_cons, List.nodup_cons] at hnd
      have hnd' : (rs.map RegSpec.name).Nodup := hnd.2
      have hne : ∀ r' ∈ rs, r'.name ≠ r.name := by
        intro r' hr' heq
        exact hnd.1 (heq ▸ List.mem_map_of_mem RegSpec.name hr')
      have hdisj' : ∀ r' ∈ rs,
          r'.name ∉ (registerTool r.name r.description r.handler r.inputSchema st).toolHandlers.map
            Prod.fst := by
        intro r' hr'
        rw [hkeys1]
        simp only [List.mem_append, List.mem_singleton, not_or]
        exact ⟨hdisj r' (List.mem_cons_of_mem r hr'), hne r' hr'⟩
      obtain ⟨hk, ht⟩ := ih (registerTool r.name r.description r.handler r.inputSchema st) hnd' hdisj'
      rw [applyRegs_cons]
      constructor
      · rw [hk, hkeys1]; simp
      · rw [ht]
        show st.tools ++ [r.toInfo] ++ rs.map RegSpec.toInfo = _
        simp

/-- Under distinct names, the descriptor lookup performed by the `list_tools`
handler finds exactly the registration's own descriptor. -/
lemma find?_toInfo (regs : List RegSpec) (hnd : (regs.map RegSpec.name).Nodup) :
    ∀ r ∈ regs, (regs.map RegSpec.toInfo).find? (fun t => t.name == r.name)
      = some r.toInfo := by
  induction regs with
  | nil => intro r hr; simp at hr
  | cons r₀ rs ih =>
      intro r hr
      rcases List.mem_cons.mp hr with h | h
      · subst h
        simp [List.find?, RegSpec.toInfo]
      · rw [List.map_cons, List.nodup_cons] at hnd
        have hne : r₀.name ≠ r.name := by
          intro heq
          exact hnd.1 (heq ▸ List.mem_map_of_mem RegSpec.name h)
        have hnd' : (rs.map RegSpec.name).Nodup := hnd.2
        simp only [List.map_cons, List.find?]
        have : ((RegSpec.toInfo r₀).name == r.name) = false := by
          simpa [RegSpec.toInfo] using beq_false_of_ne hne
        rw [this]
        exact ih hnd' r h

/-- C5: (a) for every sequence of distinctly-named registrations starting from
the empty registry, `list_tools` produces one descriptor per registration, in
registration order, each rendered from its own registration; (b) handling any
request leaves the registry unchanged, so a second `list_tools` request with
no intervening registration returns the identical response; (c) an empty
registry yields a success response with an empty tool list, not an error. -/
theorem listTools_order_idempotent_empty (regs : List RegSpec)
    (hnd : (regs.map RegSpec.name).Nodup) (st : ServerState) (msg : JMessage) :
    listToolsArray (applyRegs regs emptyServerState)
      = regs.map (fun r => renderDescriptor r.name (some r.toInfo))
    ∧ handleRequest ((handleRequestStep st msg).2) msg = handleRequest st msg
    ∧ handleRequest emptyServerState ⟨some (.num 0), some "list_tools", none⟩
        = .success (.num 0) (.obj [("tools", .arr [])]) := by
  refine ⟨?_, by rw [step_state_eq], rfl⟩
  obtain ⟨hk, ht⟩ := applyRegs_keys_tools regs emptyServerState hnd
    (by intro r _ h; simp [emptyServerState] at h)
  unfold listToolsArray
  rw [hk, ht]
  simp only [emptyServerState, List.map_nil, List.nil_append, List.map_map]
  refine List.map_congr_left ?_
  intro r hr
  simp only [Function.comp]
  rw [find?_toInfo regs hnd r hr]

theorem listTools_order_idempotent_empty_witness :
    (([⟨"a", "da", handlerOne, schemaOne⟩,
       ⟨"b", "db", handlerTwo, schemaTwo⟩] : List RegSpec).map RegSpec.name).Nodup
    ∧ (listToolsArray (applyRegs
          [⟨"a", "da", handlerOne, schemaOne⟩, ⟨"b", "db", handlerTwo, schemaTwo⟩]
          emptyServerState)
        = [renderDescriptor "a" (some ⟨"a", "da", schemaOne⟩),
           renderDescriptor "b" (some ⟨"b", "db", schemaTwo⟩)]
      ∧ handleRequest ((handleRequestStep freshServer msgListTools).2) msgListTools
          = handleRequest freshServer msgListTools
      ∧ handleRequest emptyServerState ⟨some (.num 0), some "list_tools", none⟩
          = .success (.num 0) (.obj [("tools", .arr [])])) :=
  ⟨by simp, listTools_order_idempotent_empty
    [⟨"a", "da", handlerOne, schemaOne⟩, ⟨"b", "db", handlerTwo, schemaTwo⟩]
    (by simp) freshServer msgListTools⟩

/-- Whether the per-item operation of a batch call failed for a given path. -/
def opFailed (op : String → Except String String) (p : String) : Bool :=
  match op p with
  | .ok _ => false
  | .error _ => true

/-- C6: the batch fan-out shared by `read_multiple_images_base64` and
`upload_multiple_images` reports one entry per input path, in input order:
the i-th entry is the success entry (path and payload) when the per-item
operation succeeds on the i-th path, and the error entry carrying that item's
individual error message when it fails; the number of error entries equals the
number of failing paths (K), the rest (N−K) are successes, and the wrapped
tool response of both tools is a success response (`isError = false`)
enumerating exactly these entries — one item's failure never fails the call. -/
theorem batch_partial_failure (op : String → Except String String)
    (paths : List String) :
    (batchResults op paths).length = paths.length
    ∧ (batchResults op paths).map BatchEntry.path = paths
    ∧ (∀ i : Nat, (batchResults op paths)[i]? = (paths[i]?).map (fun p =>
        match op p with
        | .ok payload => BatchEntry.ok p payload
        | .error e => BatchEntry.err p e))
    ∧ (batchResults op paths).countP BatchEntry.isErr = paths.countP (opFailed op)
    ∧ readMultipleImagesCall op (some (.obj [("paths", .arr (paths.map JsonValue.str))]))
        = ⟨[.obj [("type", .str "text"), ("text", .str (jsonStringify
            (.arr ((batchResults op paths).map (BatchEntry.toJson "base64")))))]], false⟩
    ∧ uploadMultipleImagesCall op (some (.obj [("paths", .arr (paths.map JsonValue.str))]))
        = ⟨[.obj [("type", .str "text"), ("text", .str (jsonStringify
            (.arr ((batchResults op paths).map (BatchEntry.toJson "url")))))]], false⟩ := by
  have hparse : ∀ ps : List String, parseStringList (ps.map JsonValue.str) = some ps := by
    intro ps
    induction ps with
    | nil => rfl
    | cons p rest ih => simp [parseStringList, ih]
  refine ⟨by simp [batchResults], ?_, ?_, ?_, ?_, ?_⟩
  · unfold batchResults
    rw [List.map_map]
    have : ∀ p ∈ paths, (BatchEntry.path ∘ fun p =>
        match op p with
        | .ok payload => BatchEntry.ok p payload
        | .error e => BatchEntry.err p e) p = id p := by
      intro p _
      cases h : op p <;> simp [h, BatchEntry.path]
    rw [List.map_congr_left this, List.map_id]
  · intro i
    unfold batchResults
    rw [List.getElem?_map]
  · unfold batchResults
    rw [List.countP_map]
    refine List.countP_congr ?_
    intro p _
    unfold opFailed
    cases h : op p <;> simp [h, BatchEntry.isErr]
  · unfold readMultipleImagesCall batchToolCall
    simp [lookupField, hparse paths]
  · unfold uploadMultipleImagesCall batchToolCall
    simp [lookupField, hparse paths]

/-- C7: closing a connected `DirectTransport` whose options carry an `onClose`
cleanup callback clears the connection flag and removes all internal event
listeners, running the cleanup callback exactly once; a second `close` returns
without error (both calls are `.ok`: no code path of `close` throws) and runs
neither the cleanup callback nor the `onclose` notification again. -/
theorem close_idempotent_cleanup_once (opts : TransportOpts) (s : TransportState)
    (hc : s.isConnected = true) (ho : opts.hasOnClose = true) :
    transportClose opts s = .ok (⟨false, 0⟩, ⟨1, 1⟩)
    ∧ transportClose opts (⟨false, 0⟩ : TransportState)
        = .ok (⟨false, 0⟩, ⟨0, 0⟩) := by
  constructor
  · simp [transportClose, hc, ho]
  · simp [transportClose]

theorem close_idempotent_cleanup_once_witness :
    ((⟨true, 1⟩ : TransportState).isConnected = true
      ∧ (⟨true⟩ : TransportOpts).hasOnClose = true)
    ∧ (transportClose ⟨true⟩ ⟨true, 1⟩ = .ok (⟨false, 0⟩, ⟨1, 1⟩)
      ∧ transportClose ⟨true⟩ (⟨false, 0⟩ : TransportState)
          = .ok (⟨false, 0⟩, ⟨0, 0⟩)) :=
  ⟨⟨rfl, rfl⟩, close_idempotent_cleanup_once ⟨true⟩ ⟨true, 1⟩ rfl rfl⟩

/-- C8: while the transport is connected, a `send` whose dispatch through the
bound message-handling callback fails resolves without throwing (the result is
`.ok`, unlike the not-connected case, which throws `未连接`): the failure is
delivered through the `onerror` callback, nothing is emitted as a response,
and the caller of `send` needs no try/catch to observe the dispatch failure. -/
theorem send_error_via_onerror (handleMessage : JMessage → Except String JResponse)
    (s : TransportState) (msg : JMessage) (e : String)
    (hc : s.isConnected = true) (hf : handleMessage msg = .error e) :
    transportSend handleMessage s msg = .ok ⟨[], [e]⟩ := by
  simp [transportSend, hc, hf]

theorem send_error_via_onerror_witness :
    ((⟨true, 1⟩ : TransportState).isConnected = true
      ∧ (fun _ : JMessage => (.error "boom" : Except String JResponse)) msgListTools
          = .error "boom")
    ∧ transportSend (fun _ => .error "boom") ⟨true, 1⟩ msgListTools = .ok ⟨[], ["boom"]⟩ :=
  ⟨⟨rfl, rfl⟩, send_error_via_onerror (fun _ => .error "boom") ⟨true, 1⟩ msgListTools "boom" rfl rfl⟩

/-- C9: handling any request — `list_tools`, `call_tool` with any name and
arguments, an unknown method, or a malformed message — leaves the registry
untouched: the tool-handler map and the stored descriptor array after
`handleRequest` are the ones from before, so the produced response is a pure
function of the registry state and the request. -/
theorem handleRequest_pure (st : ServerState) (msg : JMessage) :
    (handleRequestStep st msg).2 = st :=
  step_state_eq st msg

/-- C10: every `DirectServer`, for any caller-supplied tool list and any
runtime presenter data, finishes construction with the built-in tools `sum`
and `listPresenters` registered (the constructor registers the caller-supplied
tools first, then the builtins — the final conjunct records that order), so a
`list_tools` request on a fresh server reports a descriptor list that includes
both names and in particular is never empty. -/
theorem builtin_tools_registered (ts : List RegSpec) (ps : List JsonValue) :
    (List.lookup "sum" (newDirectServer ts ps).toolHandlers).isSome
    ∧ (List.lookup "listPresenters" (newDirectServer ts ps).toolHandlers).isSome
    ∧ "sum" ∈ (newDirectServer ts ps).toolHandlers.map Prod.fst
    ∧ "listPresenters" ∈ (newDirectServer ts ps).toolHandlers.map Prod.fst
    ∧ listToolsArray (newDirectServer ts ps) ≠ []
    ∧ newDirectServer ts ps = registerBuiltinTools ps (applyRegs ts emptyServerState) := by
  have hsum : List.lookup "sum" (newDirectServer ts ps).toolHandlers = some sumHandler := by
    show List.lookup "sum"
      (mapSet (mapSet (applyRegs ts emptyServerState).toolHandlers "sum" sumHandler)
        "listPresenters" (listPresentersHandler ps)) = some sumHandler
    rw [lookup_mapSet_ne _ _ (by decide), lookup_mapSet_self]
  have hlp : List.lookup "listPresenters" (newDirectServer ts ps).toolHandlers
      = some (listPresentersHandler ps) := by
    show List.lookup "listPresenters"
      (mapSet (mapSet (applyRegs ts emptyServerState).toolHandlers "sum" sumHandler)
        "listPresenters" (listPresentersHandler ps)) = some (listPresentersHandler ps)
    rw [lookup_mapSet_self]
  have hmemSum : "sum" ∈ (newDirectServer ts ps).toolHandlers.map Prod.fst := by
    show "sum" ∈ (mapSet (mapSet (applyRegs ts emptyServerState).toolHandlers "sum" sumHandler)
        "listPresenters" (listPresentersHandler ps)).map Prod.fst
    exact mem_keys_mapSet_of_mem _ _ _ (mem_keys_mapSet_self _ _ _)
  have hmemLp : "listPresenters" ∈ (newDirectServer ts ps).toolHandlers.map Prod.fst :=
    mem_keys_mapSet_self _ _ _
  refine ⟨by rw [hsum]; rfl, by rw [hlp]; rfl, hmemSum, hmemLp, ?_, rfl⟩
  intro hempty
  unfold listToolsArray at hempty
  rw [List.map_eq_nil_iff.mp hempty] at hmemSum
  exact List.not_mem_nil _ hmemSum
